import Mathlib

/-!
Shallow embedding of `src/backend/server.py` (record-management service):
the bulk-import line parser (`import_resources`), the CRUD store gateway
(`create_resource`, `update_resource`, `delete_resource`) over an explicit
list-of-documents model of the Mongo collection, and the `datetime`
ISO-8601 serialization round trip used on insert and read.

Strings are worked with as `List Char` in the parsing core (Python `str`
values), wrapped into `String` at the API boundary.
-/

namespace Server

/-- Python `str.strip()` whitespace, restricted to the ASCII whitespace
characters (the inputs of this service are ASCII credential lines). -/
def pyWs (c : Char) : Bool :=
  c == ' ' || c == '\t' || c == '\n' || c == '\r' || c == '\x0b' || c == '\x0c'

/-- Python `str.strip()`: drop whitespace from both ends. -/
def pyStrip (l : List Char) : List Char :=
  ((l.dropWhile pyWs).reverse.dropWhile pyWs).reverse

/-- Python `str.split('\n')`: split on every newline, keeping empty pieces;
the result is always non-empty (`"".split('\n') == ['']`). -/
def splitNl : List Char → List (List Char)
  | [] => [[]]
  | c :: cs =>
    if c = '\n' then [] :: splitNl cs
    else
      match splitNl cs with
      | [] => [[c]]
      | h :: t => (c :: h) :: t

/-- Split a list at the first occurrence of `c`: `some (before, after)`
with `c` not in `before`, or `none` when `c` does not occur. -/
def breakAt (c : Char) : List Char → Option (List Char × List Char)
  | [] => none
  | x :: xs =>
    if x = c then some ([], xs)
    else
      match breakAt c xs with
      | none => none
      | some (a, b) => some (x :: a, b)

/-- Python `line.rsplit(c, 2)`: split into at most 3 segments scanning
from the end — at most two breaks, taken at the rightmost occurrences of
`c`, found by breaking the reversed list from the left. -/
def rsplit2 (c : Char) (l : List Char) : List (List Char) :=
  match breakAt c l.reverse with
  | none => [l]
  | some (a, b) =>
    match breakAt c b with
    | none => [b.reverse, a.reverse]
    | some (a2, b2) => [b2.reverse, a2.reverse, a.reverse]

/-- The per-line invalid-format message of `import_resources`
(`f"Строка {i}: неверный формат (ожидается url:login:pass)"`). -/
def invalidMsg (i : Nat) : String :=
  "Строка " ++ Nat.repr i ++ ": неверный формат (ожидается url:login:pass)"

/-- The per-line empty-fields message of `import_resources`
(`f"Строка {i}: пустые поля"`). -/
def emptyMsg (i : Nat) : String :=
  "Строка " ++ Nat.repr i ++ ": пустые поля"

/-- Outcome of one iteration of the import loop body: the line was
whitespace-only and skipped, recorded an error, or produced a record. -/
inductive LineResult where
  | skip : LineResult
  | err (msg : String) : LineResult
  | ok (url login password : List Char) : LineResult
deriving DecidableEq, Repr

/-- Body of the `for i, line in enumerate(lines, 1)` loop of
`import_resources`: strip the line, skip if empty, `rsplit(':', 2)`,
require exactly 3 parts, strip each part, require all non-empty. -/
def processLine (i : Nat) (raw : List Char) : LineResult :=
  let line := pyStrip raw
  if line = [] then .skip
  else
    match rsplit2 ':' line with
    | [a, b, c] =>
      let url := pyStrip a
      let login := pyStrip b
      let password := pyStrip c
      if url = [] ∨ login = [] ∨ password = [] then .err (emptyMsg i)
      else .ok url login password
    | _ => .err (invalidMsg i)

/-- Result of an import run: the `imported` counter, the `errors` list,
and the `(url, login, password)` rows inserted into the store, in order. -/
structure ImportOutcome where
  imported : Nat
  errors : List String
  rows : List (List Char × List Char × List Char)
deriving DecidableEq, Repr

/-- The import loop over the line list, starting at line index `i`. -/
def importLines (i : Nat) : List (List Char) → ImportOutcome
  | [] => ⟨0, [], []⟩
  | l :: ls =>
    match processLine i l with
    | .skip => importLines (i + 1) ls
    | .err m =>
      let o := importLines (i + 1) ls
      ⟨o.imported, m :: o.errors, o.rows⟩
    | .ok u lg pw =>
      let o := importLines (i + 1) ls
      ⟨o.imported + 1, o.errors, (u, lg, pw) :: o.rows⟩

/-- `import_resources` on successfully decoded text, without store
failures: `lines = text.strip().split('\n')`, then the loop from line 1. -/
def importText (text : String) : ImportOutcome :=
  importLines 1 (splitNl (pyStrip text.data))

/-! ## The `datetime` ISO-8601 round trip

`create_resource` and the import loop store `created_at` as
`datetime.isoformat()` of an aware UTC `datetime`; `get_resources` and
`update_resource` read it back with `datetime.fromisoformat`. A UTC
`datetime` is modelled by its calendar fields; `isoformat` emits
`YYYY-MM-DDTHH:MM:SS[.ffffff]+00:00` (microseconds omitted when zero),
and `fromisoformat` is modelled on exactly that emitted grammar. -/

/-- An aware UTC Python `datetime`, by calendar fields. -/
structure PyDateTime where
  year : Nat
  month : Nat
  day : Nat
  hour : Nat
  minute : Nat
  second : Nat
  microsecond : Nat
deriving DecidableEq, Repr

/-- The decimal digit character for `n % 10`-sized values. -/
def digitChar (n : Nat) : Char :=
  match n with
  | 0 => '0'
  | 1 => '1'
  | 2 => '2'
  | 3 => '3'
  | 4 => '4'
  | 5 => '5'
  | 6 => '6'
  | 7 => '7'
  | 8 => '8'
  | _ => '9'

/-- Numeric value of a decimal digit character. -/
def d2n (c : Char) : Nat := c.toNat - 48

/-- Decimal digit test. -/
def isDig (c : Char) : Bool := decide (48 ≤ c.toNat) && decide (c.toNat ≤ 57)

/-- Two decimal digits, zero padded (`%02d` for values below 100). -/
def pad2 (n : Nat) : List Char := [digitChar (n / 10 % 10), digitChar (n % 10)]

/-- Four decimal digits, zero padded (`%04d` for values below 10000). -/
def pad4 (n : Nat) : List Char :=
  [digitChar (n / 1000 % 10), digitChar (n / 100 % 10),
   digitChar (n / 10 % 10), digitChar (n % 10)]

/-- Six decimal digits, zero padded (`%06d` for values below 1000000). -/
def pad6 (n : Nat) : List Char :=
  [digitChar (n / 100000 % 10), digitChar (n / 10000 % 10),
   digitChar (n / 1000 % 10), digitChar (n / 100 % 10),
   digitChar (n / 10 % 10), digitChar (n % 10)]

/-- `datetime.isoformat()` of an aware UTC datetime:
`YYYY-MM-DDTHH:MM:SS[.ffffff]+00:00`, the microsecond part omitted when
the microsecond is zero. -/
def isoformat (t : PyDateTime) : String :=
  String.mk
    (pad4 t.year ++ '-' :: pad2 t.month ++ '-' :: pad2 t.day ++
     'T' :: pad2 t.hour ++ ':' :: pad2 t.minute ++ ':' :: pad2 t.second ++
     (if t.microsecond = 0 then [] else '.' :: pad6 t.microsecond) ++
     ['+', '0', '0', ':', '0', '0'])

/-- `datetime.fromisoformat` on the grammar `isoformat` emits: fixed-width
date and time fields, an optional six-digit fraction, and the `+00:00`
offset. Returns `none` on any other shape. -/
def fromisoChars (l : List Char) : Option PyDateTime :=
  match l with
  | y1 :: y2 :: y3 :: y4 :: c1 :: m1 :: m2 :: c2 :: d1 :: d2 ::
    c3 :: h1 :: h2 :: c4 :: n1 :: n2 :: c5 :: s1 :: s2 :: rest =>
    if c1 == '-' && c2 == '-' && c3 == 'T' && c4 == ':' && c5 == ':' &&
       isDig y1 && isDig y2 && isDig y3 && isDig y4 &&
       isDig m1 && isDig m2 && isDig d1 && isDig d2 &&
       isDig h1 && isDig h2 && isDig n1 && isDig n2 &&
       isDig s1 && isDig s2 then
      let y := 1000 * d2n y1 + 100 * d2n y2 + 10 * d2n y3 + d2n y4
      let mo := 10 * d2n m1 + d2n m2
      let d := 10 * d2n d1 + d2n d2
      let h := 10 * d2n h1 + d2n h2
      let mi := 10 * d2n n1 + d2n n2
      let s := 10 * d2n s1 + d2n s2
      match rest with
      | ['+', '0', '0', ':', '0', '0'] => some ⟨y, mo, d, h, mi, s, 0⟩
      | '.' :: u1 :: u2 :: u3 :: u4 :: u5 :: u6 ::
        '+' :: '0' :: '0' :: ':' :: '0' :: '0' :: [] =>
        if isDig u1 && isDig u2 && isDig u3 && isDig u4 && isDig u5 && isDig u6 then
          some ⟨y, mo, d, h, mi, s,
                100000 * d2n u1 + 10000 * d2n u2 + 1000 * d2n u3 +
                100 * d2n u4 + 10 * d2n u5 + d2n u6⟩
        else none
      | _ => none
    else none
  | _ => none

/-- `datetime.fromisoformat` on strings. -/
def fromisoformat (s : String) : Option PyDateTime := fromisoChars s.data

/-! ## The record store gateway

The Mongo collection `db.resources` is modelled as a list of documents in
insertion order; `insert_one` appends, `find_one_and_update` updates the
first match, `delete_one` removes the first match. A stored document
carries `created_at` as the ISO string, exactly as inserted. -/

/-- A persisted document of the `resources` collection. -/
structure StoredDoc where
  id : String
  url : String
  login : String
  password : String
  is_active : Bool
  created_at : String
deriving DecidableEq, Repr

/-- The `Resource` API model: `created_at` is a structured datetime. -/
structure Resource where
  id : String
  url : String
  login : String
  password : String
  is_active : Bool
  created_at : PyDateTime
deriving DecidableEq, Repr

/-- The `ResourceCreate` request body. -/
structure ResourceCreate where
  url : String
  login : String
  password : String
deriving DecidableEq, Repr

/-- Errors surfaced by the CRUD handlers: the 404 `HTTPException` with its
detail string, or an uncaught exception (500-equivalent). -/
inductive ApiError where
  | notFound (detail : String)
  | internal (msg : String)
deriving DecidableEq, Repr

/-- `POST /api/resources`: build the `Resource` from the input with a
fresh id and current UTC time, insert it with `created_at` serialized to
ISO-8601, and return the resource object. -/
def create_resource (input : ResourceCreate) (freshId : String)
    (now : PyDateTime) (store : List StoredDoc) : Resource × List StoredDoc :=
  let r : Resource :=
    { id := freshId, url := input.url, login := input.login,
      password := input.password, is_active := true, created_at := now }
  (r, store ++ [{ id := freshId, url := input.url, login := input.login,
                  password := input.password, is_active := true,
                  created_at := isoformat now }])

/-- Mongo `find_one({"id": rid})`: the first document whose `id` matches. -/
def findOne (rid : String) : List StoredDoc → Option StoredDoc
  | [] => none
  | d :: ds => if d.id = rid then some d else findOne rid ds

/-- Mongo `find_one_and_update({"id": rid}, {"$set": {"is_active": b}},
return_document=True)`: update the first matching document, returning the
post-update document and the new collection; `none` when no match. -/
def findOneAndUpdate (rid : String) (b : Bool) :
    List StoredDoc → Option (StoredDoc × List StoredDoc)
  | [] => none
  | d :: ds =>
    if d.id = rid then some ({ d with is_active := b }, { d with is_active := b } :: ds)
    else
      match findOneAndUpdate rid b ds with
      | none => none
      | some (r, ds') => some (r, d :: ds')

/-- Mongo `delete_one({"id": rid})`: remove the first matching document;
`none` models `deleted_count == 0`. -/
def deleteOne (rid : String) : List StoredDoc → Option (List StoredDoc)
  | [] => none
  | d :: ds =>
    if d.id = rid then some ds
    else
      match deleteOne rid ds with
      | none => none
      | some ds' => some (d :: ds')

/-- `PUT /api/resources/{id}`: find-and-update `is_active`; 404 with
detail `"Ресурс не найден"` when no document matches (store unchanged);
otherwise parse the stored `created_at` back and return the post-update
record. A stored timestamp `fromisoformat` cannot parse raises
(500-equivalent) after the update already happened. -/
def update_resource (rid : String) (b : Bool) (store : List StoredDoc) :
    Except ApiError Resource × List StoredDoc :=
  match findOneAndUpdate rid b store with
  | none => (.error (.notFound "Ресурс не найден"), store)
  | some (d, store') =>
    match fromisoformat d.created_at with
    | none => (.error (.internal "invalid isoformat string"), store')
    | some ts =>
      (.ok { id := d.id, url := d.url, login := d.login, password := d.password,
             is_active := d.is_active, created_at := ts }, store')

/-- `DELETE /api/resources/{id}`: delete by id; 404 with detail
`"Ресурс не найден"` when nothing was deleted (store unchanged), else the
success message `"Ресурс удалён"`. -/
def delete_resource (rid : String) (store : List StoredDoc) :
    Except ApiError String × List StoredDoc :=
  match deleteOne rid store with
  | none => (.error (.notFound "Ресурс не найден"), store)
  | some store' => (.ok "Ресурс удалён", store')

/-! ## The full import handler

The whole body of `import_resources` — reading and decoding the upload,
the per-line loop, and every `insert_one` — sits inside one
`try ... except Exception as e: raise HTTPException(400, f"Ошибка
импорта: {e}")`. Decoding is an external collaborator (`bytes.decode`),
modelled as an oracle `Except String (List Char)` carrying either the
exception text or the decoded text; store failure is an oracle
`Option (Nat × String)` naming which `insert_one` (0-based among
successful-so-far inserts) raises and with what exception text. -/

/-- The HTTP-equivalent outcome of the import endpoint. -/
inductive HandlerResult where
  | success (message : String) (imported : Nat) (errors : List String)
  | httpError (status : Nat) (detail : String)
deriving DecidableEq, Repr

/-- The import loop threading the count of inserts done so far, where
insert number `failAt.1` raises the exception text `failAt.2`. -/
def importLoopF (failAt : Option (Nat × String)) :
    Nat → Nat → List (List Char) → Except String (Nat × List String)
  | _, cnt, [] => .ok (cnt, [])
  | i, cnt, l :: ls =>
    match processLine i l with
    | .skip => importLoopF failAt (i + 1) cnt ls
    | .err m =>
      match importLoopF failAt (i + 1) cnt ls with
      | .error e => .error e
      | .ok (n, es) => .ok (n, m :: es)
    | .ok _ _ _ =>
      match failAt with
      | some (k, msg) =>
        if k = cnt then .error msg else importLoopF failAt (i + 1) (cnt + 1) ls
      | none => importLoopF failAt (i + 1) (cnt + 1) ls

/-- `POST /api/resources/import`: any exception inside the body — decode
failure or `insert_one` failure — is caught by the blanket handler and
becomes `HTTPException(400, "Ошибка импорта: " + str(e))`; otherwise the
partial-success report is returned. -/
def import_resources (decoded : Except String (List Char))
    (failAt : Option (Nat × String)) : HandlerResult :=
  match decoded with
  | .error e => .httpError 400 ("Ошибка импорта: " ++ e)
  | .ok text =>
    match importLoopF failAt 1 0 (splitNl (pyStrip text)) with
    | .error e => .httpError 400 ("Ошибка импорта: " ++ e)
    | .ok (n, es) => .success ("Импортировано ресурсов: " ++ Nat.repr n) n es

/-! ## Supporting lemmas -/

/-- The error recorded by the loop body at index `i`, if any. -/
def lineError (i : Nat) (l : List Char) : Option String :=
  match processLine i l with
  | .err m => some m
  | _ => none

/-- The errors of an import run are exactly the per-line errors of the
lines, in order, each produced with its 1-based index in the line list. -/
theorem importLines_errors (ls : List (List Char)) :
    ∀ i, (importLines i ls).errors =
      (List.enumFrom i ls).filterMap (fun p => lineError p.1 p.2) := by
  induction ls with
  | nil => intro i; rfl
  | cons l ls ih =>
    intro i
    show (importLines i (l :: ls)).errors =
      ((i, l) :: List.enumFrom (i + 1) ls).filterMap (fun p => lineError p.1 p.2)
    rw [List.filterMap_cons]
    cases h : processLine i l with
    | skip => simp [importLines, h, lineError, ih]
    | err m => simp [importLines, h, lineError, ih]
    | ok u lg pw => simp [importLines, h, lineError, ih]

/-- The loop body records only `invalidMsg i` or `emptyMsg i` as an error
at index `i`; otherwise it skips or accepts. -/
theorem processLine_shape (i : Nat) (l : List Char) :
    processLine i l = .skip ∨ processLine i l = .err (invalidMsg i) ∨
    processLine i l = .err (emptyMsg i) ∨
    ∃ u lg pw, processLine i l = .ok u lg pw := by
  unfold processLine
  by_cases h : pyStrip l = []
  · simp [h]
  · simp only [h, if_false]
    cases hs : rsplit2 ':' (pyStrip l) with
    | nil => simp
    | cons a t =>
      cases t with
      | nil => simp
      | cons b t' =>
        cases t' with
        | nil => simp
        | cons c t'' =>
          cases t'' with
          | nil =>
            by_cases he : pyStrip a = [] ∨ pyStrip b = [] ∨ pyStrip c = []
            · simp [he]
            · exact Or.inr (Or.inr (Or.inr
                ⟨pyStrip a, pyStrip b, pyStrip c, by simp [he]⟩))
          | cons d t''' => simp

/-- A line the loop accepts has non-empty stripped fields. -/
theorem processLine_ok_nonempty (i : Nat) (l u lg pw : List Char)
    (h : processLine i l = .ok u lg pw) : u ≠ [] ∧ lg ≠ [] ∧ pw ≠ [] := by
  unfold processLine at h
  by_cases h0 : pyStrip l = []
  · simp [h0] at h
  · simp only [h0, if_false] at h
    cases hs : rsplit2 ':' (pyStrip l) with
    | nil => rw [hs] at h; exact absurd h (by simp)
    | cons a t =>
      rw [hs] at h
      cases t with
      | nil => exact absurd h (by simp)
      | cons b t' =>
        cases t' with
        | nil => exact absurd h (by simp)
        | cons c t'' =>
          cases t'' with
          | nil =>
            by_cases he : pyStrip a = [] ∨ pyStrip b = [] ∨ pyStrip c = []
            · simp [he] at h
            · simp only [he, if_false, LineResult.ok.injEq] at h
              obtain ⟨h1, h2, h3⟩ := h
              subst h1; subst h2; subst h3
              push_neg at he
              exact he
          | cons d t''' => exact absurd h (by simp)

/-- Every row the import loop inserts has non-empty fields. -/
theorem importLines_rows_nonempty (ls : List (List Char)) :
    ∀ i u lg pw, (u, lg, pw) ∈ (importLines i ls).rows →
      u ≠ [] ∧ lg ≠ [] ∧ pw ≠ [] := by
  induction ls with
  | nil => intro i u lg pw h; exact absurd h (by simp [importLines])
  | cons l ls ih =>
    intro i u lg pw h
    cases hp : processLine i l with
    | skip => rw [importLines, hp] at h; exact ih _ _ _ _ h
    | err m => rw [importLines, hp] at h; exact ih _ _ _ _ h
    | ok u' lg' pw' =>
      rw [importLines, hp] at h
      rcases List.mem_cons.mp h with h1 | h2
      · injection h1 with e1 e23
        injection e23 with e2 e3
        subst e1; subst e2; subst e3
        exact processLine_ok_nonempty i l _ _ _ hp
      · exact ih _ _ _ _ h2

/-- The loop body skips exactly the lines that strip to nothing. -/
theorem processLine_skip_iff (i : Nat) (l : List Char) :
    processLine i l = .skip ↔ pyStrip l = [] := by
  constructor
  · intro h
    by_contra h0
    unfold processLine at h
    simp only [h0, if_false] at h
    cases hs : rsplit2 ':' (pyStrip l) with
    | nil => rw [hs] at h; exact absurd h (by simp)
    | cons a t =>
      rw [hs] at h
      cases t with
      | nil => exact absurd h (by simp)
      | cons b t' =>
        cases t' with
        | nil => exact absurd h (by simp)
        | cons c t'' =>
          cases t'' with
          | nil =>
            by_cases he : pyStrip a = [] ∨ pyStrip b = [] ∨ pyStrip c = []
            · simp [he] at h
            · simp [he] at h
          | cons d t''' => exact absurd h (by simp)
  · intro h
    unfold processLine
    simp [h]

/-- Without store failure the counting loop is the plain import loop with
the insert counter added on. -/
theorem importLoopF_none (ls : List (List Char)) :
    ∀ i cnt, importLoopF none i cnt ls =
      .ok (cnt + (importLines i ls).imported, (importLines i ls).errors) := by
  induction ls with
  | nil => intro i cnt; simp [importLoopF, importLines]
  | cons l ls ih =>
    intro i cnt
    cases hp : processLine i l with
    | skip => rw [importLoopF, importLines, hp, ih]
    | err m => rw [importLoopF, importLines, hp, ih]
    | ok u lg pw =>
      simp only [importLoopF, importLines, hp, ih, Except.ok.injEq, Prod.mk.injEq]
      exact ⟨by omega, trivial⟩

/-- Each line that is non-empty after stripping contributes exactly one
record or exactly one error: the counter plus the error count is
the number of such lines. -/
theorem importLines_partition (ls : List (List Char)) :
    ∀ i, (importLines i ls).imported + (importLines i ls).errors.length =
      (ls.filter (fun l => !(pyStrip l).isEmpty)).length := by
  induction ls with
  | nil => intro i; rfl
  | cons l ls ih =>
    intro i
    rw [List.filter_cons]
    cases hp : processLine i l with
    | skip =>
      have h0 : pyStrip l = [] := (processLine_skip_iff i l).mp hp
      rw [importLines, hp]
      simp [h0, ih]
    | err m =>
      have h0 : pyStrip l ≠ [] := by
        intro h; rw [(processLine_skip_iff i l).mpr h] at hp; exact absurd hp (by simp)
      rw [importLines, hp]
      simp only [List.isEmpty_iff, h0, not_false_eq_true, Bool.not_eq_eq_eq_not,
        Bool.not_true, decide_eq_false_iff_not]
      simp [h0, List.length_cons]
      have := ih (i + 1)
      omega
    | ok u lg pw =>
      have h0 : pyStrip l ≠ [] := by
        intro h; rw [(processLine_skip_iff i l).mpr h] at hp; exact absurd hp (by simp)
      rw [importLines, hp]
      simp [h0, List.length_cons]
      have := ih (i + 1)
      omega

/-- The number of lines of a text that are non-empty after stripping. -/
def countNE (l : List Char) : Nat :=
  ((splitNl l).filter (fun s => !(pyStrip s).isEmpty)).length

/-- Splitting on newlines never yields the empty list. -/
theorem splitNl_ne_nil (l : List Char) : splitNl l ≠ [] := by
  cases l with
  | nil => simp [splitNl]
  | cons c cs =>
    unfold splitNl
    by_cases hc : c = '\n'
    · simp [hc]
    · simp only [hc, if_false]
      cases splitNl cs <;> simp

/-- Stripping ignores a leading whitespace character. -/
theorem pyStrip_cons_ws (c : Char) (h : List Char) (hc : pyWs c = true) :
    pyStrip (c :: h) = pyStrip h := by
  unfold pyStrip
  rw [List.dropWhile_cons]
  simp [hc]

/-- A line strips to nothing exactly when it is all whitespace. -/
theorem pyStrip_eq_nil_iff (l : List Char) :
    pyStrip l = [] ↔ ∀ c ∈ l, pyWs c = true := by
  unfold pyStrip
  rw [List.reverse_eq_nil_iff, List.dropWhile_eq_nil_iff]
  constructor
  · intro h c hc
    rcases (List.mem_append.mp ((List.takeWhile_append_dropWhile (p := pyWs) (l := l)) ▸ hc))
      with h1 | h2
    · exact List.mem_takeWhile_imp h1
    · exact h c (List.mem_reverse.mpr h2)
  · intro h c hc
    exact h c ((List.dropWhile_sublist (p := pyWs)).subset (List.mem_reverse.mp hc))

/-- Dropping leading whitespace from the whole text does not change how
many of its lines are non-empty after stripping. -/
theorem countNE_dropWhile (l : List Char) :
    countNE (l.dropWhile pyWs) = countNE l := by
  induction l with
  | nil => rfl
  | cons c cs ih =>
    rw [List.dropWhile_cons]
    by_cases hc : pyWs c = true
    · simp only [hc, if_true]
      rw [ih]
      by_cases hn : c = '\n'
      · unfold countNE
        rw [show splitNl (c :: cs) = [] :: splitNl cs by rw [splitNl]; simp [hn]]
        simp [pyStrip]
      · unfold countNE
        cases hs : splitNl cs with
        | nil => exact absurd hs (splitNl_ne_nil cs)
        | cons h t =>
          rw [show splitNl (c :: cs) = (c :: h) :: t by
            rw [splitNl]; simp only [hn, if_false]; rw [hs]]
          rw [List.filter_cons, List.filter_cons, pyStrip_cons_ws c h hc]
          by_cases hp : (!(pyStrip h).isEmpty) = true
          · simp [hp]
          · simp [hp]
    · simp [hc]

/-- Extend the last piece of a non-empty list of pieces by one character
(the effect of one more non-newline character on a newline split). -/
def extendLast : List (List Char) → Char → List (List Char)
  | [], x => [[x]]
  | [s], x => [s ++ [x]]
  | s :: t, x => s :: extendLast t x

theorem extendLast_append_singleton (A : List (List Char)) (s : List Char) (x : Char) :
    extendLast (A ++ [s]) x = A ++ [s ++ [x]] := by
  induction A with
  | nil => rfl
  | cons a A ih =>
    have step : extendLast (a :: (A ++ [s])) x = a :: extendLast (A ++ [s]) x := by
      cases hA : A ++ [s] with
      | nil => exact absurd hA (by simp)
      | cons r rs => rfl
    show extendLast (a :: (A ++ [s])) x = a :: (A ++ [s ++ [x]])
    rw [step, ih]

/-- One appended character either closes a line (`'\n'`) or extends the
last line of the split. -/
theorem splitNl_snoc (l : List Char) (x : Char) :
    splitNl (l ++ [x]) =
      if x = '\n' then splitNl l ++ [[]] else extendLast (splitNl l) x := by
  induction l with
  | nil => by_cases hx : x = '\n' <;> simp [splitNl, hx, extendLast]
  | cons c cs ih =>
    show splitNl (c :: (cs ++ [x])) = _
    by_cases hc : c = '\n'
    · rw [show splitNl (c :: (cs ++ [x])) = [] :: splitNl (cs ++ [x]) by
        rw [splitNl]; simp [hc]]
      rw [ih]
      by_cases hx : x = '\n'
      · simp only [hx, if_true]
        rw [show splitNl (c :: cs) = [] :: splitNl cs by rw [splitNl]; simp [hc]]
        rfl
      · simp only [hx, if_false]
        rw [show splitNl (c :: cs) = [] :: splitNl cs by rw [splitNl]; simp [hc]]
        cases hs : splitNl cs with
        | nil => exact absurd hs (splitNl_ne_nil cs)
        | cons h t => rfl
    · cases hs : splitNl cs with
      | nil => exact absurd hs (splitNl_ne_nil cs)
      | cons h t =>
        have hccs : splitNl (c :: cs) = (c :: h) :: t := by
          rw [splitNl]; simp only [hc, if_false]; rw [hs]
        have hmain : ∀ h' t', splitNl (cs ++ [x]) = h' :: t' →
            splitNl (c :: (cs ++ [x])) = (c :: h') :: t' := by
          intro h' t' hq
          rw [splitNl]; simp only [hc, if_false]; rw [hq]
        by_cases hx : x = '\n'
        · have h1 : splitNl (cs ++ [x]) = h :: (t ++ [[]]) := by
            rw [ih]; simp only [hx, if_true]; rw [hs]; rfl
          rw [hmain _ _ h1, hccs]
          simp [hx]
        · cases t with
          | nil =>
            have h1 : splitNl (cs ++ [x]) = (h ++ [x]) :: [] := by
              rw [ih]; simp only [hx, if_false]; rw [hs]; rfl
            rw [hmain _ _ h1, hccs]
            simp only [hx, if_false]
            show [c :: (h ++ [x])] = [(c :: h) ++ [x]]
            rw [List.cons_append]
          | cons t1 ts =>
            have h1 : splitNl (cs ++ [x]) = h :: extendLast (t1 :: ts) x := by
              rw [ih]; simp only [hx, if_false]; rw [hs]; rfl
            rw [hmain _ _ h1, hccs]
            simp only [hx, if_false]
            rfl

/-- Newline splitting commutes with reversal: the pieces come out
reversed and in reverse order. -/
theorem splitNl_reverse (l : List Char) :
    splitNl l.reverse = ((splitNl l).map List.reverse).reverse := by
  induction l with
  | nil => rfl
  | cons c cs ih =>
    rw [List.reverse_cons, splitNl_snoc, ih]
    by_cases hc : c = '\n'
    · simp only [hc, if_true]
      rw [show splitNl ('\n' :: cs) = [] :: splitNl cs by rw [splitNl]; simp]
      simp
    · simp only [hc, if_false]
      cases hs : splitNl cs with
      | nil => exact absurd hs (splitNl_ne_nil cs)
      | cons h t =>
        rw [show splitNl (c :: cs) = (c :: h) :: t by
          rw [splitNl]; simp only [hc, if_false]; rw [hs]]
        rw [List.map_cons, List.reverse_cons, extendLast_append_singleton,
          List.map_cons, List.reverse_cons]
        simp

/-- Reversing the text does not change how many lines are non-empty
after stripping. -/
theorem countNE_reverse (l : List Char) : countNE l.reverse = countNE l := by
  unfold countNE
  rw [splitNl_reverse, List.filter_reverse, List.length_reverse, List.filter_map]
  rw [List.length_map]
  have : ∀ s ∈ splitNl l,
      ((fun s => !(pyStrip s).isEmpty) ∘ List.reverse) s =
        (fun s => !(pyStrip s).isEmpty) s := by
    intro s _
    have h : pyStrip s.reverse = [] ↔ pyStrip s = [] := by
      rw [pyStrip_eq_nil_iff, pyStrip_eq_nil_iff]
      constructor
      · intro h c hc; exact h c (List.mem_reverse.mpr hc)
      · intro h c hc; exact h c (List.mem_reverse.mp hc)
    show (!(pyStrip s.reverse).isEmpty) = (!(pyStrip s).isEmpty)
    have h2 : (pyStrip s.reverse).isEmpty = (pyStrip s).isEmpty := by
      rcases Classical.em (pyStrip s = []) with he | he
      · rw [he, h.mpr he]
      · have a1 : (pyStrip s.reverse).isEmpty ≠ true :=
          fun hx => he (h.mp (List.isEmpty_iff.mp hx))
        have a2 : (pyStrip s).isEmpty ≠ true :=
          fun hx => he (List.isEmpty_iff.mp hx)
        simp only [Bool.not_eq_true] at a1 a2
        rw [a1, a2]
    rw [h2]
  rw [List.filter_congr this]

/-- The global `text.strip()` removes only all-whitespace material at the
two ends, so it does not change the number of lines that are non-empty
after per-line stripping. -/
theorem countNE_pyStrip (l : List Char) : countNE (pyStrip l) = countNE l := by
  unfold pyStrip
  rw [countNE_reverse, countNE_dropWhile, countNE_reverse, countNE_dropWhile]

/-- A failed break means the delimiter does not occur. -/
theorem breakAt_none_not_mem (c : Char) :
    ∀ l : List Char, breakAt c l = none → c ∉ l := by
  intro l
  induction l with
  | nil => intro _; simp
  | cons x xs ih =>
    intro h
    unfold breakAt at h
    by_cases hx : x = c
    · rw [if_pos hx] at h
      exact absurd h (by simp)
    · rw [if_neg hx] at h
      rcases hb : breakAt c xs with _ | ⟨a, b⟩
      · intro hm
        rcases List.mem_cons.mp hm with h1 | h2
        · exact hx h1.symm
        · exact ih hb h2
      · rw [hb] at h
        exact absurd h (by simp)

/-- A successful break splits the list at the first occurrence of the
delimiter. -/
theorem breakAt_some_spec (c : Char) :
    ∀ l a b : List Char, breakAt c l = some (a, b) →
      l = a ++ c :: b ∧ c ∉ a := by
  intro l
  induction l with
  | nil => intro a b h; exact absurd h (by simp [breakAt])
  | cons x xs ih =>
    intro a b h
    unfold breakAt at h
    by_cases hx : x = c
    · rw [if_pos hx] at h
      injection h with h1
      injection h1 with h2 h3
      subst h2; subst h3; subst hx
      exact ⟨rfl, by simp⟩
    · rw [if_neg hx] at h
      rcases hb : breakAt c xs with _ | ⟨a', b'⟩
      · rw [hb] at h
        exact absurd h (by simp)
      · rw [hb] at h
        injection h with h1
        injection h1 with h2 h3
        subst h2; subst h3
        obtain ⟨hsp, hna⟩ := ih a' b' hb
        constructor
        · rw [List.cons_append, ← hsp]
        · intro hm
          rcases List.mem_cons.mp hm with h1 | h2
          · exact hx h1.symm
          · exact hna h2

/-- `rsplit(c, 2)` yields 1, 2 or 3 segments: the whole delimiter-free
list, a one-break split, or a two-break split whose last two segments are
delimiter-free, the earlier delimiters staying inside the first segment. -/
theorem rsplit2_cases (c : Char) (s : List Char) :
    (rsplit2 c s = [s] ∧ c ∉ s) ∨
    (∃ u pw, rsplit2 c s = [u, pw] ∧ s = u ++ c :: pw ∧ c ∉ u ∧ c ∉ pw) ∨
    (∃ u lg pw, rsplit2 c s = [u, lg, pw] ∧
      s = u ++ c :: lg ++ c :: pw ∧ c ∉ lg ∧ c ∉ pw) := by
  rcases h1 : breakAt c s.reverse with _ | ⟨a, b⟩
  · left
    constructor
    · unfold rsplit2
      rw [h1]
    · have := breakAt_none_not_mem c s.reverse h1
      intro hm
      exact this (List.mem_reverse.mpr hm)
  · obtain ⟨hsp, hna⟩ := breakAt_some_spec c s.reverse a b h1
    have hs : s = b.reverse ++ c :: a.reverse := by
      have : s = s.reverse.reverse := (List.reverse_reverse s).symm
      rw [this, hsp, List.reverse_append, List.reverse_cons, List.append_assoc,
        List.singleton_append]
    rcases h2 : breakAt c b with _ | ⟨a2, b2⟩
    · right; left
      refine ⟨b.reverse, a.reverse, ?_, hs, ?_, ?_⟩
      · simp only [rsplit2, h1, h2]
      · intro hm
        exact breakAt_none_not_mem c b h2 (List.mem_reverse.mp hm)
      · intro hm
        exact hna (List.mem_reverse.mp hm)
    · obtain ⟨hsp2, hna2⟩ := breakAt_some_spec c b a2 b2 h2
      right; right
      refine ⟨b2.reverse, a2.reverse, a.reverse, ?_, ?_, ?_, ?_⟩
      · simp only [rsplit2, h1, h2]
      · rw [hs, hsp2, List.reverse_append, List.reverse_cons]
        simp [List.append_assoc]
      · intro hm
        exact hna2 (List.mem_reverse.mp hm)
      · intro hm
        exact hna (List.mem_reverse.mp hm)

/-- With no matching id, `find_one_and_update` matches nothing. -/
theorem findOneAndUpdate_eq_none (rid : String) (b : Bool) :
    ∀ store : List StoredDoc, (∀ d ∈ store, d.id ≠ rid) →
      findOneAndUpdate rid b store = none := by
  intro store
  induction store with
  | nil => intro _; rfl
  | cons d ds ih =>
    intro h
    unfold findOneAndUpdate
    rw [if_neg (h d (List.mem_cons_self d ds))]
    rw [ih (fun x hx => h x (List.mem_cons_of_mem d hx))]

/-- With no matching id, `delete_one` deletes nothing. -/
theorem deleteOne_eq_none (rid : String) :
    ∀ store : List StoredDoc, (∀ d ∈ store, d.id ≠ rid) →
      deleteOne rid store = none := by
  intro store
  induction store with
  | nil => intro _; rfl
  | cons d ds ih =>
    intro h
    unfold deleteOne
    rw [if_neg (h d (List.mem_cons_self d ds))]
    rw [ih (fun x hx => h x (List.mem_cons_of_mem d hx))]

/-- A non-matching head document passes through `update_resource`
untouched: the response is that of the tail, the head stays in place. -/
theorem update_resource_cons_ne (rid : String) (b : Bool) (d0 : StoredDoc)
    (ds : List StoredDoc) (h0 : ¬ d0.id = rid) :
    update_resource rid b (d0 :: ds) =
      ((update_resource rid b ds).1, d0 :: (update_resource rid b ds).2) := by
  rcases hF : findOneAndUpdate rid b ds with _ | ⟨rdoc, sF⟩
  · have hcons : findOneAndUpdate rid b (d0 :: ds) = none := by
      simp only [findOneAndUpdate]
      rw [if_neg h0, hF]
    simp [update_resource, hcons, hF]
  · have hcons : findOneAndUpdate rid b (d0 :: ds) = some (rdoc, d0 :: sF) := by
      simp only [findOneAndUpdate]
      rw [if_neg h0, hF]
    rcases hP : fromisoformat rdoc.created_at with _ | ts' <;>
      simp [update_resource, hcons, hF, hP]

/-- `SetActive(id, false)` on a store whose first match for `id` is `d`
(with a parseable stored timestamp) returns the post-update record — the
fields of `d` with `is_active := false` — and doing it again returns the
same record and leaves the store as it was after the first call. -/
theorem update_setActive_false_idem (rid : String) (store : List StoredDoc)
    (d : StoredDoc) (ts : PyDateTime) (hfind : findOne rid store = some d)
    (hts : fromisoformat d.created_at = some ts) :
    ∃ s', update_resource rid false store =
        (.ok { id := d.id, url := d.url, login := d.login, password := d.password,
               is_active := false, created_at := ts }, s') ∧
      update_resource rid false s' =
        (.ok { id := d.id, url := d.url, login := d.login, password := d.password,
               is_active := false, created_at := ts }, s') := by
  induction store with
  | nil => exact absurd hfind (by simp [findOne])
  | cons d0 ds ih =>
    by_cases h0 : d0.id = rid
    · have hd : d = d0 := by
        unfold findOne at hfind
        rw [if_pos h0] at hfind
        injection hfind with h
        exact h.symm
      subst hd
      obtain ⟨i0, u0, l0, p0, a0, c0⟩ := d
      refine ⟨⟨i0, u0, l0, p0, false, c0⟩ :: ds, ?_, ?_⟩
      · have hd' : findOneAndUpdate rid false (⟨i0, u0, l0, p0, a0, c0⟩ :: ds) =
            some (⟨i0, u0, l0, p0, false, c0⟩, ⟨i0, u0, l0, p0, false, c0⟩ :: ds) := by
          unfold findOneAndUpdate
          rw [if_pos h0]
        simp only [update_resource, hd']
        rw [show fromisoformat (⟨i0, u0, l0, p0, false, c0⟩ : StoredDoc).created_at =
          some ts from hts]
      · have hd' : findOneAndUpdate rid false (⟨i0, u0, l0, p0, false, c0⟩ :: ds) =
            some (⟨i0, u0, l0, p0, false, c0⟩, ⟨i0, u0, l0, p0, false, c0⟩ :: ds) := by
          unfold findOneAndUpdate
          rw [if_pos h0]
        simp only [update_resource, hd']
        rw [show fromisoformat (⟨i0, u0, l0, p0, false, c0⟩ : StoredDoc).created_at =
          some ts from hts]
    · have hfind' : findOne rid ds = some d := by
        unfold findOne at hfind
        rw [if_neg h0] at hfind
        exact hfind
      obtain ⟨s', h1, h2⟩ := ih hfind'
      refine ⟨d0 :: s', ?_, ?_⟩
      · rw [update_resource_cons_ne rid false d0 ds h0, h1]
      · rw [update_resource_cons_ne rid false d0 s' h0, h2]

/-- Every character `digitChar` produces is a decimal digit. -/
theorem isDig_digitChar (n : Nat) : isDig (digitChar n) = true := by
  unfold digitChar
  rcases n with _|_|_|_|_|_|_|_|_|n <;> rfl

/-- Reading back the digit of a reduced value recovers it. -/
theorem d2n_digitChar_mod (n : Nat) : d2n (digitChar (n % 10)) = n % 10 := by
  have h : n % 10 < 10 := Nat.mod_lt _ (by decide)
  generalize hk : n % 10 = k at h ⊢
  interval_cases k <;> rfl

/-- Serializing a UTC datetime with `isoformat` and parsing the string
back with `fromisoformat` recovers the datetime exactly, for all field
values the emitted fixed-width digit groups can carry (which covers every
datetime Python's range checks admit). -/
theorem isoformat_roundtrip (Y MO D H MI S US : Nat)
    (hy : Y ≤ 9999) (hmo : MO ≤ 99) (hd : D ≤ 99) (hh : H ≤ 99)
    (hmi : MI ≤ 99) (hs : S ≤ 99) (hus : US ≤ 999999) :
    fromisoformat (isoformat ⟨Y, MO, D, H, MI, S, US⟩) =
      some ⟨Y, MO, D, H, MI, S, US⟩ := by
  by_cases h0 : US = 0
  · subst h0
    simp only [fromisoformat, isoformat, pad4, pad2, pad6, List.cons_append,
      List.nil_append, if_pos]
    unfold fromisoChars
    simp only [isDig_digitChar, Bool.and_true, Bool.true_and, d2n_digitChar_mod]
    rw [if_pos (by decide)]
    simp only [Option.some.injEq, PyDateTime.mk.injEq, and_true]
    omega
  · unfold fromisoformat isoformat
    rw [if_neg h0]
    simp only [pad4, pad2, pad6, List.cons_append, List.nil_append]
    unfold fromisoChars
    simp only [isDig_digitChar, Bool.and_true, Bool.true_and, d2n_digitChar_mod]
    rw [if_pos (by decide)]
    simp only [if_true, Option.some.injEq, PyDateTime.mk.injEq, and_true]
    omega

/-! ## The claims -/

/-- C1, counterexample: the claim says the per-line error carries the
line's 1-based position in the ORIGINAL input text, so for the input
`"\nbadline"` — first line blank, second line invalid — the error should
name line 2. The code runs `text.strip()` before splitting, so the
leading blank line is discarded and the error names line 1. -/
theorem importText_leading_blank_line_cex :
    (importText "\nbadline").errors =
      ["Строка 1: неверный формат (ожидается url:login:pass)"] ∧
    (importText "\nbadline").errors ≠
      ["Строка 2: неверный формат (ожидается url:login:pass)"] := by
  decide

/-- C1, amended: the bulk-import parser splits the input into lines on
newline characters after stripping whitespace from both ends of the whole
text, trims each line, and records each per-line error with the line's
1-based position in that stripped text (so leading blank lines shift the
numbering); every recorded message is the invalid-format or empty-fields
message carrying that position. -/
theorem importText_error_positions (text : String) :
    (importText text).errors =
      (List.enumFrom 1 (splitNl (pyStrip text.data))).filterMap
        (fun p => lineError p.1 p.2) ∧
    ∀ i l m, processLine i l = .err m → m = invalidMsg i ∨ m = emptyMsg i := by
  refine ⟨importLines_errors (splitNl (pyStrip text.data)) 1, ?_⟩
  intro i l m hm
  rcases processLine_shape i l with h | h | h | ⟨u, lg, pw, h⟩ <;> rw [h] at hm
  · exact absurd hm (by simp)
  · injection hm with h1
    exact Or.inl h1.symm
  · injection hm with h1
    exact Or.inr h1.symm
  · exact absurd hm (by simp)

/-- C1, witness for the amended theorem's message-shape clause at a
concrete line. -/
theorem importText_error_positions_witness :
    "Строка 1: неверный формат (ожидается url:login:pass)" = invalidMsg 1 ∨
    "Строка 1: неверный формат (ожидается url:login:pass)" = emptyMsg 1 :=
  (importText_error_positions "badline").2 1 ("badline".data)
    "Строка 1: неверный формат (ожидается url:login:pass)" (by decide)

/-- C2, counterexample: the claim says a store failure during import
propagates as a 500-equivalent, decode failure being the only
400-equivalent path. In the code the whole import body sits inside
`except Exception: raise HTTPException(400, ...)`, so a failing
`insert_one` (here: the first insert raises "boom") surfaces as a 400. -/
theorem import_resources_store_failure_cex :
    import_resources (Except.ok ("a:b:c".data)) (some (0, "boom")) =
      .httpError 400 "Ошибка импорта: boom" := by
  decide

/-- C2, amended: every exception inside the import body — decode failure
or store failure alike — is caught and surfaced as a 400-equivalent whose
detail is prefixed "Ошибка импорта: "; no 500-equivalent escapes. When
decoding succeeds and the store does not fail, per-line validation
problems never abort the batch: the call returns the partial-success
report of the import loop. -/
theorem import_resources_exception_handling (decoded : Except String (List Char))
    (failAt : Option (Nat × String)) :
    ((∃ m n es, import_resources decoded failAt = .success m n es) ∨
      (∃ s, import_resources decoded failAt =
        .httpError 400 ("Ошибка импорта: " ++ s))) ∧
    (∀ t : List Char, import_resources (Except.ok t) none =
      .success
        ("Импортировано ресурсов: " ++
          Nat.repr (importLines 1 (splitNl (pyStrip t))).imported)
        (importLines 1 (splitNl (pyStrip t))).imported
        (importLines 1 (splitNl (pyStrip t))).errors) := by
  constructor
  · cases decoded with
    | error e => exact Or.inr ⟨e, rfl⟩
    | ok t =>
      rcases hL : importLoopF failAt 1 0 (splitNl (pyStrip t)) with e | ⟨n, es⟩
      · exact Or.inr ⟨e, by simp [import_resources, hL]⟩
      · exact Or.inl ⟨"Импортировано ресурсов: " ++ Nat.repr n, n, es,
          by simp [import_resources, hL]⟩
  · intro t
    simp [import_resources, importLoopF_none (splitNl (pyStrip t)) 1 0]

/-- C3, counterexample: on the scenario input the error list is not the
English string the claim quotes — the code records its messages in
Russian. -/
theorem importText_scenario_message_cex :
    (importText "http://a.com:user1:pass1\nbadline\nhttp://b.com:user2:pass2").errors ≠
      ["Line 2: invalid format (expected url:login:pass)"] := by
  decide

/-- C3, amended: on the input
`"http://a.com:user1:pass1\nbadline\nhttp://b.com:user2:pass2"` the
bulk import returns `imported = 2` and exactly one error, the line-2
invalid-format message as the code actually spells it. -/
theorem importText_scenario_result :
    (importText "http://a.com:user1:pass1\nbadline\nhttp://b.com:user2:pass2").imported
      = 2 ∧
    (importText "http://a.com:user1:pass1\nbadline\nhttp://b.com:user2:pass2").errors
      = ["Строка 2: неверный формат (ожидается url:login:pass)"] := by
  decide

/-- C4: a non-empty trimmed line is rsplit on `':'` with at most 2
splits. With two or more colons this always yields exactly 3 segments —
the last two colon-free segments become login and password, everything
before them (colons included) becomes the url — and the line is accepted
iff all three are non-empty after trimming; with zero or one colon the
line always records the invalid-format error. -/
theorem processLine_rsplit_bounds (i : Nat) (line : List Char)
    (h : pyStrip line ≠ []) :
    (2 ≤ (pyStrip line).count ':' →
      ∃ u lg pw, rsplit2 ':' (pyStrip line) = [u, lg, pw] ∧
        pyStrip line = u ++ ':' :: lg ++ ':' :: pw ∧ ':' ∉ lg ∧ ':' ∉ pw ∧
        processLine i line =
          (if pyStrip u = [] ∨ pyStrip lg = [] ∨ pyStrip pw = []
           then LineResult.err (emptyMsg i)
           else LineResult.ok (pyStrip u) (pyStrip lg) (pyStrip pw))) ∧
    ((pyStrip line).count ':' ≤ 1 →
      processLine i line = LineResult.err (invalidMsg i)) := by
  have hPL : processLine i line =
      (match rsplit2 ':' (pyStrip line) with
       | [a, b, c] =>
         if pyStrip a = [] ∨ pyStrip b = [] ∨ pyStrip c = []
         then LineResult.err (emptyMsg i)
         else LineResult.ok (pyStrip a) (pyStrip b) (pyStrip c)
       | _ => LineResult.err (invalidMsg i)) := by
    simp only [processLine]
    rw [if_neg h]
  rcases rsplit2_cases ':' (pyStrip line) with ⟨hsp, hnm⟩ |
    ⟨u, pw, hsp, hseq, hnu, hnp⟩ | ⟨u, lg, pw, hsp, hseq, hnl, hnp⟩
  · have hc : (pyStrip line).count ':' = 0 := List.count_eq_zero.mpr hnm
    constructor
    · intro h2
      rw [hc] at h2
      exact absurd h2 (by omega)
    · intro _
      rw [hPL, hsp]
  · have hc : (pyStrip line).count ':' = 1 := by
      simp [hseq, List.count_append, List.count_cons,
        List.count_eq_zero.mpr hnu, List.count_eq_zero.mpr hnp]
    constructor
    · intro h2
      rw [hc] at h2
      exact absurd h2 (by omega)
    · intro _
      rw [hPL, hsp]
  · have hc : 2 ≤ (pyStrip line).count ':' := by
      simp [hseq, List.count_append, List.count_cons]
      omega
    constructor
    · intro _
      exact ⟨u, lg, pw, hsp, hseq, hnl, hnp, by rw [hPL, hsp]⟩
    · intro h1
      exact absurd h1 (by omega)

/-- C4, witness: a line with no colon records the invalid-format error. -/
theorem processLine_rsplit_bounds_witness :
    processLine 1 (['a', 'b']) = LineResult.err (invalidMsg 1) :=
  (processLine_rsplit_bounds 1 (['a', 'b']) (by decide)).2 (by decide)

/-- C5: a line that is empty after trimming is skipped — it records no
error and is not counted, the rest of the run continuing with only the
line number advanced; an empty file yields `imported = 0` and no errors. -/
theorem importText_skip_blank (i : Nat) (line : List Char)
    (ls : List (List Char)) (h : pyStrip line = []) :
    importLines i (line :: ls) = importLines (i + 1) ls ∧
    importText "" = ⟨0, [], []⟩ := by
  constructor
  · rw [importLines, (processLine_skip_iff i line).mpr h]
  · rfl

/-- C5, witness: a single-space line is skipped; the empty file imports
nothing. -/
theorem importText_skip_blank_witness :
    importLines 5 ([' '] :: []) = importLines 6 [] ∧
    importText "" = ⟨0, [], []⟩ :=
  importText_skip_blank 5 ([' ']) [] (by decide)

/-- C6, counterexample: the claim says Create never persists a record
with an empty url, login or password. `ResourceCreate` applies no
non-emptiness validation, so creating with an empty url persists a
document whose url is the empty string. -/
theorem create_resource_empty_url_cex :
    (create_resource ⟨"", "user", "pw"⟩ "id-1" ⟨2024, 1, 2, 3, 4, 5, 0⟩ []).2 =
      [⟨"id-1", "", "user", "pw", true, "2024-01-02T03:04:05+00:00"⟩] := by
  decide

/-- C6, amended: only the import path guarantees non-emptiness — every
row the import loop inserts has non-empty url, login and password
(each checked after trimming) — while Create itself performs no such
validation and stores its input fields verbatim. -/
theorem import_rows_fields_nonempty (text : String) (u lg pw : List Char)
    (h : (u, lg, pw) ∈ (importText text).rows) :
    u ≠ [] ∧ lg ≠ [] ∧ pw ≠ [] :=
  importLines_rows_nonempty (splitNl (pyStrip text.data)) 1 u lg pw h

/-- C6, witness: the fields of the row imported from `"a:b:c"` are
non-empty. -/
theorem import_rows_fields_nonempty_witness :
    ("a".data ≠ ([] : List Char)) ∧ "b".data ≠ ([] : List Char) ∧
      "c".data ≠ ([] : List Char) :=
  import_rows_fields_nonempty "a:b:c" ("a".data) ("b".data) ("c".data) (by decide)

/-- C7: on an id matching no stored document, `SetActive` and `Delete`
both fail with the 404 not-found error and leave the store unchanged. -/
theorem update_delete_missing_id_notFound (rid : String) (b : Bool)
    (store : List StoredDoc) (h : ∀ d ∈ store, d.id ≠ rid) :
    update_resource rid b store =
      (.error (.notFound "Ресурс не найден"), store) ∧
    delete_resource rid store =
      (.error (.notFound "Ресурс не найден"), store) := by
  constructor
  · simp [update_resource, findOneAndUpdate_eq_none rid b store h]
  · simp [delete_resource, deleteOne_eq_none rid store h]

/-- C7, witness: updating or deleting id "b" on a store holding only id
"a" yields not-found and the same store. -/
theorem update_delete_missing_id_notFound_witness :
    update_resource "b" true [⟨"a", "u", "l", "p", true, "t"⟩] =
      (.error (.notFound "Ресурс не найден"), [⟨"a", "u", "l", "p", true, "t"⟩]) ∧
    delete_resource "b" [⟨"a", "u", "l", "p", true, "t"⟩] =
      (.error (.notFound "Ресурс не найден"), [⟨"a", "u", "l", "p", true, "t"⟩]) :=
  update_delete_missing_id_notFound "b" true [⟨"a", "u", "l", "p", true, "t"⟩]
    (by decide)

/-- C8: on an id whose first stored match is `d` (with a parseable stored
timestamp), `SetActive(id, false)` returns the post-update record — the
fields of `d` with `is_active := false` — and applying it a second time
returns the same record and the same store as the first application. -/
theorem setActive_false_idempotent (rid : String) (store : List StoredDoc)
    (d : StoredDoc) (ts : PyDateTime) (hfind : findOne rid store = some d)
    (hts : fromisoformat d.created_at = some ts) :
    ∃ s', update_resource rid false store =
        (.ok { id := d.id, url := d.url, login := d.login, password := d.password,
               is_active := false, created_at := ts }, s') ∧
      update_resource rid false s' =
        (.ok { id := d.id, url := d.url, login := d.login, password := d.password,
               is_active := false, created_at := ts }, s') :=
  update_setActive_false_idem rid store d ts hfind hts

/-- C8, witness at a concrete one-document store. -/
theorem setActive_false_idempotent_witness :
    ∃ s', update_resource "r1" false
        [⟨"r1", "u", "l", "p", true, "2024-01-02T03:04:05+00:00"⟩] =
        (.ok { id := "r1", url := "u", login := "l", password := "p",
               is_active := false, created_at := ⟨2024, 1, 2, 3, 4, 5, 0⟩ }, s') ∧
      update_resource "r1" false s' =
        (.ok { id := "r1", url := "u", login := "l", password := "p",
               is_active := false, created_at := ⟨2024, 1, 2, 3, 4, 5, 0⟩ }, s') :=
  setActive_false_idempotent "r1"
    [⟨"r1", "u", "l", "p", true, "2024-01-02T03:04:05+00:00"⟩]
    ⟨"r1", "u", "l", "p", true, "2024-01-02T03:04:05+00:00"⟩
    ⟨2024, 1, 2, 3, 4, 5, 0⟩ (by decide) (by decide)

/-- C9: serializing `created_at` to ISO-8601 (as on insert) and parsing
it back (as on read) recovers the timestamp exactly — in particular to at
least second precision — for every field assignment the emitted
fixed-width digit groups can carry, covering all datetimes Python
admits. -/
theorem created_at_roundtrip (Y MO D H MI S US : Nat)
    (hy : Y ≤ 9999) (hmo : MO ≤ 99) (hd : D ≤ 99) (hh : H ≤ 99)
    (hmi : MI ≤ 99) (hs : S ≤ 99) (hus : US ≤ 999999) :
    fromisoformat (isoformat ⟨Y, MO, D, H, MI, S, US⟩) =
      some ⟨Y, MO, D, H, MI, S, US⟩ :=
  isoformat_roundtrip Y MO D H MI S US hy hmo hd hh hmi hs hus

/-- C9, witness at a concrete microsecond-bearing timestamp. -/
theorem created_at_roundtrip_witness :
    fromisoformat (isoformat ⟨2024, 5, 17, 12, 34, 56, 123456⟩) =
      some ⟨2024, 5, 17, 12, 34, 56, 123456⟩ :=
  created_at_roundtrip 2024 5 17 12 34 56 123456 (by decide) (by decide)
    (by decide) (by decide) (by decide) (by decide) (by decide)

/-- C10: the imported count plus the number of errors equals the number
of input lines that are non-empty after trimming (counted in the original
input text — the global strip removes only all-whitespace material at the
ends, which never changes this count): each such line contributes exactly
one record or exactly one error. -/
theorem import_count_errors_partition (text : String) :
    (importText text).imported + (importText text).errors.length =
      ((splitNl text.data).filter (fun l => !(pyStrip l).isEmpty)).length :=
  (importLines_partition (splitNl (pyStrip text.data)) 1).trans
    (countNE_pyStrip text.data)

end Server

